import Mathlib

/-!
Verification development for the `.ppt` → `.pptx` batch converter
(`scripts/convert-to-pptx/convert-to-pptx.py`).

The script is shallowly embedded:

* a file path is a list of directory components plus a file name
  (a list of characters, so that the `pathlib` suffix arithmetic can be
  modelled character by character);
* the filesystem visible to a call is the list of files that exist,
  with paths taken relative to the directory being converted (output
  files are always siblings of their inputs, so they live in the same
  relative namespace);
* the platform-selected conversion backend
  (`convert_with_libreoffice` on Darwin/Linux, `convert_with_comtypes`
  on Windows) is abstracted as a function
  `FPath → FPath → Except String Bool`; `Except.error` models a raised
  exception, `Except.ok b` a normal return of `b`;
* the `ThreadPoolExecutor` run is modelled by running the submitted
  jobs over the initial filesystem snapshot.  This is faithful: output
  paths are derived 1:1 from distinct input paths, so no job's
  existence checks can be affected by another job's output, and the
  aggregation in the source is order-insensitive (counters only);
* the timing behaviour needed for the timeout contract is modelled
  separately for the two concrete backends, with explicit durations.
-/

set_option autoImplicit false

/-- Index of the last '.' in a list of characters (Python `str.rfind('.')`,
restricted to the found case). -/
def rfindDot : List Char → Option Nat
  | [] => none
  | c :: cs =>
    match rfindDot cs with
    | some i => some (i + 1)
    | none => if c = '.' then some 0 else none

/-- The extension of a file name, `pathlib.PurePath.suffix`: the part from
the last dot, empty when the dot is absent, leading, or trailing. -/
def suffixChars (name : List Char) : List Char :=
  match rfindDot name with
  | some i => if 0 < i ∧ i < name.length - 1 then name.drop i else []
  | none => []

/-- Replace a file name's extension, `pathlib.PurePath.with_suffix`: drop a
non-empty suffix if there is one, then append the new suffix. -/
def withSuffixChars (name newSuf : List Char) : List Char :=
  match rfindDot name with
  | some i => if 0 < i ∧ i < name.length - 1 then name.take i ++ newSuf else name ++ newSuf
  | none => name ++ newSuf

/-- A file path relative to the converted directory: directory components
plus a file name. -/
structure FPath where
  dirs : List String
  name : List Char
deriving DecidableEq

/-- The legacy extension `.ppt` as characters. -/
def pptExt : List Char := ['.', 'p', 'p', 't']

/-- The modern extension `.pptx` as characters. -/
def pptxExt : List Char := ['.', 'p', 'p', 't', 'x']

/-- Whether `name` ends with `suf` — the semantics of the glob pattern
`*.ppt` on a single name component (fnmatch, `*` may match empty). -/
def endsWithChars (name suf : List Char) : Bool :=
  decide (name.reverse.take suf.length = suf.reverse)

/-- `Path.exists()` against the modelled filesystem. -/
def fileExists (fs : List FPath) (p : FPath) : Bool :=
  decide (p ∈ fs)

/-- `ppt_file.with_suffix('.pptx')`: the sibling output path of an input. -/
def outputPathOf (p : FPath) : FPath :=
  { p with name := withSuffixChars p.name pptxExt }

/-- Rendering of a path for log / outcome messages. -/
def FPath.toStr (p : FPath) : String :=
  String.intercalate "/" (p.dirs ++ [String.mk p.name])

/-- Result of `platform.system()`. -/
inductive Platform
  | darwin
  | windows
  | linux
  | other (name : String)
deriving DecidableEq

/-- The tuple `(success, input_path, output_path, message)` returned by
`convert_single_file` — the per-job ConversionOutcome. -/
structure Outcome where
  success : Bool
  input : FPath
  output : Option FPath
  message : String
deriving DecidableEq

/-- Output path resolution of `convert_single_file` (lines 218–221): the
given output if supplied, otherwise the input with suffix `.pptx`. -/
def resolve_output (input_path : FPath) (output_path : Option FPath) : FPath :=
  match output_path with
  | none => outputPathOf input_path
  | some o => o

/-- An invocation of `convert_single_file` together with its observable
effects: the backend calls it made and the output files it created. -/
structure SingleResult where
  outcome : Outcome
  calls : List (FPath × FPath)
  created : List FPath
deriving DecidableEq

/-- Shallow embedding of `convert_single_file` (lines 197–251).  The
platform-selected backend (`convert_with_libreoffice` on Darwin/Linux,
`convert_with_comtypes` on Windows) is passed in as `backend`;
`Except.error` models an exception raised by the call, caught by the
`try/except` at lines 235–251. -/
def convert_single_file (pl : Platform) (fs : List FPath)
    (backend : FPath → FPath → Except String Bool)
    (input_path : FPath) (output_path : Option FPath)
    (replace_existing : Bool) : SingleResult :=
  if fileExists fs input_path = false then
    ⟨⟨false, input_path, none, "Input file not found: " ++ input_path.toStr⟩, [], []⟩
  else if (suffixChars input_path.name).map Char.toLower ≠ pptExt then
    ⟨⟨false, input_path, none, "Input file is not a .ppt file: " ++ input_path.toStr⟩, [], []⟩
  else
    let out := resolve_output input_path output_path
    if fileExists fs out = true ∧ replace_existing = false then
      ⟨⟨false, input_path, some out,
        "Output file already exists (skipped): " ++ out.toStr⟩, [], []⟩
    else
      match pl with
      | .other name =>
        ⟨⟨false, input_path, some out, "Unsupported platform: " ++ name⟩, [], []⟩
      | _ =>
        match backend input_path out with
        | .ok true =>
          ⟨⟨true, input_path, some out,
            "Successfully converted: " ++ input_path.toStr ++ " -> " ++ out.toStr⟩,
            [(input_path, out)], [out]⟩
        | .ok false =>
          ⟨⟨false, input_path, some out, "Conversion failed: " ++ input_path.toStr⟩,
            [(input_path, out)], []⟩
        | .error e =>
          ⟨⟨false, input_path, some out,
            "Error converting " ++ input_path.toStr ++ ": " ++ e⟩,
            [(input_path, out)], []⟩

/-- Discovery (lines 322–324): `directory_path.glob("**/*.ppt")` when
recursive, `directory_path.glob("*.ppt")` otherwise.  `**` matches any
chain of subdirectories including none; `*.ppt` matches a name ending in
`.ppt` (case-sensitively, as `pathlib` matches on POSIX). -/
def globPpt (fs : List FPath) (recursive : Bool) : List FPath :=
  if recursive then fs.filter (fun p => endsWithChars p.name pptExt)
  else fs.filter (fun p => p.dirs.isEmpty && endsWithChars p.name pptExt)

/-- The preparation loop of `convert_directory` (lines 332–352): walk the
discovered files in order, count a skip when the output exists and
`replace_existing` is false, drop (log only) the rest in dry-run mode,
and otherwise collect `(input, output)` into `files_to_convert`.
Returns `(files_to_convert, skipped)`. -/
def prepareFiles (fs : List FPath) (dry_run replace_existing : Bool) :
    List FPath → List (FPath × FPath) × Nat
  | [] => ([], 0)
  | ppt_file :: rest =>
    let output_file := outputPathOf ppt_file
    if fileExists fs output_file && !replace_existing then
      let r := prepareFiles fs dry_run replace_existing rest
      (r.1, r.2 + 1)
    else if dry_run then
      prepareFiles fs dry_run replace_existing rest
    else
      let r := prepareFiles fs dry_run replace_existing rest
      ((ppt_file, output_file) :: r.1, r.2)

/-- The number of discovered candidates filtered out before dispatch:
those whose output already exists while `replace_existing` is false. -/
def preSkipCount (fs : List FPath) (replace_existing : Bool) (l : List FPath) : Nat :=
  (l.filter (fun p => fileExists fs (outputPathOf p) && !replace_existing)).length

/-- The observable behaviour of the worker-pool phase: the per-job results
handed back by the futures, the backend calls made, and the files
created. -/
structure JobsRun where
  results : List (Except String Outcome)
  calls : List (FPath × FPath)
  created : List FPath

/-- The worker-pool phase (lines 367–391): every submitted job runs
`convert_single_file input output replace_existing` exactly once over the
filesystem snapshot.  `convert_single_file` is total, so every
`future.result()` is an `Except.ok`. -/
def runJobs (pl : Platform) (fs : List FPath)
    (backend : FPath → FPath → Except String Bool)
    (replace_existing : Bool) (jobs : List (FPath × FPath)) : JobsRun :=
  ⟨jobs.map (fun j =>
      Except.ok (convert_single_file pl fs backend j.1 (some j.2) replace_existing).outcome),
   (jobs.map (fun j =>
      (convert_single_file pl fs backend j.1 (some j.2) replace_existing).calls)).flatten,
   (jobs.map (fun j =>
      (convert_single_file pl fs backend j.1 (some j.2) replace_existing).created)).flatten⟩

/-- The aggregation loop over completed futures (lines 375–391): a
successful outcome increments `successful`, a failed outcome increments
`failed`, and an exception raised while obtaining the result is caught
and increments `failed`.  Returns `(successful, failed)`. -/
def tallyOutcomes : List (Except String Outcome) → Nat × Nat
  | [] => (0, 0)
  | r :: rest =>
    let t := tallyOutcomes rest
    match r with
    | .ok o => if o.success then (t.1 + 1, t.2) else (t.1, t.2 + 1)
    | .error _ => (t.1, t.2 + 1)

/-- The state of the `directory_path` argument of `convert_directory`:
missing, existing but not a directory, or a directory with the given
files under it (paths relative to it). -/
inductive DirInput
  | missing
  | notDir
  | dir (files : List FPath)

/-- An invocation of `convert_directory` with its observable effects:
the returned summary (or the `ValueError` raised by
`ThreadPoolExecutor(max_workers=...)`), the pool bound actually used
(`none` when no pool was created), the backend calls made, and the
filesystem after the run. -/
structure BatchRun where
  result : Except String (Nat × Nat × Nat)
  poolSize : Option Int
  calls : List (FPath × FPath)
  finalFs : List FPath

/-- Shallow embedding of `convert_directory` (lines 298–393).  The summary
triple is `(successful, failed, skipped)`. -/
def convert_directory (pl : Platform)
    (backend : FPath → FPath → Except String Bool)
    (din : DirInput) (recursive dry_run : Bool) (max_workers : Int)
    (replace_existing : Bool) : BatchRun :=
  match din with
  | .missing => ⟨Except.ok (0, 0, 0), none, [], []⟩
  | .notDir => ⟨Except.ok (0, 0, 0), none, [], []⟩
  | .dir fs =>
    let ppt_files := globPpt fs recursive
    if ppt_files = [] then ⟨Except.ok (0, 0, 0), none, [], fs⟩
    else
      let prep := prepareFiles fs dry_run replace_existing ppt_files
      if dry_run then ⟨Except.ok (0, 0, prep.2), none, [], fs⟩
      else if prep.1 = [] then ⟨Except.ok (0, 0, prep.2), none, [], fs⟩
      else if max_workers ≤ 0 then
        ⟨Except.error "max_workers must be greater than 0", none, [], fs⟩
      else
        let jobs := runJobs pl fs backend replace_existing prep.1
        let t := tallyOutcomes jobs.results
        ⟨Except.ok (t.1, t.2, prep.2), some max_workers, jobs.calls, fs ++ jobs.created⟩

/-- One `subprocess.run` of the LibreOffice engine, abstracted by the
observations `convert_with_libreoffice` makes of it: how long the engine
would run, its return code, and whether it produces the converted file in
the temp directory. -/
structure SubprocessRun where
  duration : Nat
  returncode : Int
  producesOutput : Bool
deriving DecidableEq

/-- Shallow embedding of `convert_with_libreoffice` (lines 72–141):
`subprocess.run(..., timeout=300)` raises `TimeoutExpired` when the
engine exceeds 300 seconds, caught at line 136 and turned into failure;
otherwise a nonzero return code or a missing converted file is failure. -/
def convert_with_libreoffice (soffice_found : Bool) (r : SubprocessRun) : Bool :=
  if soffice_found = false then false
  else if 300 < r.duration then false
  else if r.returncode ≠ 0 then false
  else if r.producesOutput = false then false
  else true

/-- How long `convert_with_libreoffice` blocks: the engine's duration,
cut off at the 300-second subprocess timeout. -/
def libreoffice_block_time (soffice_found : Bool) (r : SubprocessRun) : Nat :=
  if soffice_found = false then 0 else min r.duration 300

/-- One COM automation session, abstracted by the observations
`convert_with_comtypes` makes of it: how long the PowerPoint calls take
and whether any of them raises. -/
structure ComRun where
  duration : Nat
  raisesError : Bool
deriving DecidableEq

/-- Shallow embedding of `convert_with_comtypes` (lines 143–195): no
timeout appears anywhere in this path; a raised COM error is caught and
turned into failure, and otherwise the call succeeds after however long
the automation takes. -/
def convert_with_comtypes (comtypes_available : Bool) (r : ComRun) : Bool :=
  if comtypes_available = false then false
  else if r.raisesError then false
  else true

/-- How long `convert_with_comtypes` blocks: the full duration of the
automation calls — there is no timeout parameter in this path. -/
def comtypes_block_time (comtypes_available : Bool) (r : ComRun) : Nat :=
  if comtypes_available = false then 0 else r.duration

theorem tallyOutcomes_fst_add_snd (rs : List (Except String Outcome)) :
    (tallyOutcomes rs).1 + (tallyOutcomes rs).2 = rs.length := by
  induction rs with
  | nil => rfl
  | cons r rest ih =>
    cases r with
    | ok o =>
      by_cases hs : o.success = true <;> simp [tallyOutcomes, hs] <;> omega
    | error e =>
      simp [tallyOutcomes]
      omega

theorem prepareFiles_length (fs : List FPath) (rep : Bool) (l : List FPath) :
    (prepareFiles fs false rep l).1.length + (prepareFiles fs false rep l).2 = l.length := by
  induction l with
  | nil => rfl
  | cons p rest ih =>
    by_cases hc : (fileExists fs (outputPathOf p) && !rep) = true <;>
      simp [prepareFiles, hc] <;> omega

theorem prepareFiles_skipped (fs : List FPath) (dr rep : Bool) (l : List FPath) :
    (prepareFiles fs dr rep l).2 = preSkipCount fs rep l := by
  induction l with
  | nil => rfl
  | cons p rest ih =>
    by_cases hc : (fileExists fs (outputPathOf p) && !rep) = true
    · simpa [prepareFiles, hc, preSkipCount, List.filter_cons] using ih
    · cases dr <;> simpa [prepareFiles, hc, preSkipCount, List.filter_cons] using ih

theorem withSuffixChars_pptx (name : List Char) :
    ∃ t, withSuffixChars name pptxExt = t ++ pptxExt := by
  unfold withSuffixChars
  cases h : rfindDot name with
  | none => exact ⟨name, rfl⟩
  | some i =>
    by_cases hi : 0 < i ∧ i < name.length - 1
    · exact ⟨name.take i, by simp [hi]⟩
    · exact ⟨name, by simp [hi]⟩

theorem endsWithChars_append_pptx (t : List Char) :
    endsWithChars (t ++ pptxExt) pptExt = false := by
  simp [endsWithChars, pptExt, pptxExt, List.reverse_append]

theorem outputPathOf_not_ppt (p : FPath) :
    endsWithChars (outputPathOf p).name pptExt = false := by
  obtain ⟨t, ht⟩ := withSuffixChars_pptx p.name
  simp [outputPathOf, ht, endsWithChars_append_pptx]

theorem globPpt_append_no_ppt (fs extra : List FPath) (recursive : Bool)
    (h : ∀ q ∈ extra, endsWithChars q.name pptExt = false) :
    globPpt (fs ++ extra) recursive = globPpt fs recursive := by
  have h1 : List.filter (fun p => endsWithChars p.name pptExt) extra = [] :=
    List.filter_eq_nil_iff.mpr (by intro q hq; simp [h q hq])
  have h2 : List.filter (fun p => p.dirs.isEmpty && endsWithChars p.name pptExt) extra = [] :=
    List.filter_eq_nil_iff.mpr (by intro q hq; simp [h q hq])
  cases recursive <;> simp [globPpt, List.filter_append, h1, h2]

theorem tallyOutcomes_snd_zero {rs : List (Except String Outcome)}
    (h : (tallyOutcomes rs).2 = 0) :
    ∀ r ∈ rs, ∃ o, r = Except.ok o ∧ o.success = true := by
  induction rs with
  | nil => simp
  | cons r rest ih =>
    cases r with
    | error e => simp [tallyOutcomes] at h
    | ok o =>
      by_cases hs : o.success = true
      · have h' : (tallyOutcomes rest).2 = 0 := by simpa [tallyOutcomes, hs] using h
        intro x hx
        rcases List.mem_cons.mp hx with hx | hx
        · exact ⟨o, hx, hs⟩
        · exact ih h' x hx
      · simp [tallyOutcomes, hs] at h

theorem prepareFiles_pairs (fs : List FPath) (dr rep : Bool) (l : List FPath) :
    ∀ j ∈ (prepareFiles fs dr rep l).1, j.2 = outputPathOf j.1 ∧ j.1 ∈ l := by
  induction l with
  | nil => simp [prepareFiles]
  | cons p rest ih =>
    intro j hj
    by_cases hc : (fileExists fs (outputPathOf p) && !rep) = true
    · simp only [prepareFiles, hc, if_true] at hj
      obtain ⟨h1, h2⟩ := ih j hj
      exact ⟨h1, List.mem_cons_of_mem p h2⟩
    · cases dr with
      | true =>
        simp only [prepareFiles, hc, if_false, if_true] at hj
        obtain ⟨h1, h2⟩ := ih j hj
        exact ⟨h1, List.mem_cons_of_mem p h2⟩
      | false =>
        simp only [prepareFiles, hc, if_false] at hj
        rcases List.mem_cons.mp hj with hj | hj
        · subst hj
          exact ⟨rfl, List.mem_cons_self p rest⟩
        · obtain ⟨h1, h2⟩ := ih j hj
          exact ⟨h1, List.mem_cons_of_mem p h2⟩

theorem prepareFiles_skip_zero (fs : List FPath) (l : List FPath)
    (h : (prepareFiles fs false false l).2 = 0) :
    (prepareFiles fs false false l).1 = l.map (fun p => (p, outputPathOf p)) := by
  induction l with
  | nil => rfl
  | cons p rest ih =>
    by_cases hc : fileExists fs (outputPathOf p) = true
    · exfalso
      simp only [prepareFiles, hc, Bool.not_false, Bool.and_true, if_true] at h
      omega
    · have h' : (prepareFiles fs false false rest).2 = 0 := by
        simpa [prepareFiles, hc] using h
      simp [prepareFiles, hc, ih h']

theorem prepareFiles_all_exist (fs : List FPath) (l : List FPath)
    (h : ∀ p ∈ l, fileExists fs (outputPathOf p) = true) :
    prepareFiles fs false false l = ([], l.length) := by
  induction l with
  | nil => rfl
  | cons p rest ih =>
    have hp : fileExists fs (outputPathOf p) = true := h p (List.mem_cons_self p rest)
    have hc : (fileExists fs (outputPathOf p) && !false) = true := by simp [hp]
    have ih' := ih (fun q hq => h q (List.mem_cons_of_mem p hq))
    simp [prepareFiles, hp, hc, ih']

theorem convert_single_file_success_created (pl : Platform) (fs : List FPath)
    (b : FPath → FPath → Except String Bool) (i o : FPath) (rep : Bool)
    (h : (convert_single_file pl fs b i (some o) rep).outcome.success = true) :
    (convert_single_file pl fs b i (some o) rep).created = [o] := by
  by_cases h1 : fileExists fs i = false
  · simp [convert_single_file, h1] at h
  · by_cases h2 : (suffixChars i.name).map Char.toLower = pptExt
    · by_cases h3 : fileExists fs o = true ∧ rep = false
      · simp [convert_single_file, resolve_output, h1, h2, h3] at h
      · cases pl with
        | other name => simp [convert_single_file, resolve_output, h1, h2, h3] at h
        | darwin =>
          cases hb : b i o with
          | ok v =>
            cases v with
            | true => simp [convert_single_file, resolve_output, h1, h2, h3, hb]
            | false => simp [convert_single_file, resolve_output, h1, h2, h3, hb] at h
          | error e => simp [convert_single_file, resolve_output, h1, h2, h3, hb] at h
        | windows =>
          cases hb : b i o with
          | ok v =>
            cases v with
            | true => simp [convert_single_file, resolve_output, h1, h2, h3, hb]
            | false => simp [convert_single_file, resolve_output, h1, h2, h3, hb] at h
          | error e => simp [convert_single_file, resolve_output, h1, h2, h3, hb] at h
        | linux =>
          cases hb : b i o with
          | ok v =>
            cases v with
            | true => simp [convert_single_file, resolve_output, h1, h2, h3, hb]
            | false => simp [convert_single_file, resolve_output, h1, h2, h3, hb] at h
          | error e => simp [convert_single_file, resolve_output, h1, h2, h3, hb] at h
    · simp [convert_single_file, h1, h2] at h

theorem convert_single_file_created_mem (pl : Platform) (fs : List FPath)
    (b : FPath → FPath → Except String Bool) (i : FPath) (op : Option FPath) (rep : Bool) :
    ∀ q ∈ (convert_single_file pl fs b i op rep).created, q = resolve_output i op := by
  by_cases h1 : fileExists fs i = false
  · simp [convert_single_file, h1]
  · by_cases h2 : (suffixChars i.name).map Char.toLower = pptExt
    · by_cases h3 : fileExists fs (resolve_output i op) = true ∧ rep = false
      · simp [convert_single_file, h1, h2, h3]
      · cases pl with
        | other name => simp [convert_single_file, h1, h2, h3]
        | darwin =>
          cases hb : b i (resolve_output i op) with
          | ok v => cases v <;> simp [convert_single_file, h1, h2, h3, hb]
          | error e => simp [convert_single_file, h1, h2, h3, hb]
        | windows =>
          cases hb : b i (resolve_output i op) with
          | ok v => cases v <;> simp [convert_single_file, h1, h2, h3, hb]
          | error e => simp [convert_single_file, h1, h2, h3, hb]
        | linux =>
          cases hb : b i (resolve_output i op) with
          | ok v => cases v <;> simp [convert_single_file, h1, h2, h3, hb]
          | error e => simp [convert_single_file, h1, h2, h3, hb]
    · simp [convert_single_file, h1, h2]

/-- C2: for every call to `convert_single_file` where the input file does
not exist or its extension is not `.ppt` (case-insensitively), the result
has `success = false` with a null output path, and no conversion backend
is invoked. -/
theorem c2_invalid_input_no_backend (pl : Platform) (fs : List FPath)
    (b : FPath → FPath → Except String Bool) (input_path : FPath)
    (output_path : Option FPath) (replace_existing : Bool)
    (h : fileExists fs input_path = false ∨
      (suffixChars input_path.name).map Char.toLower ≠ pptExt) :
    (convert_single_file pl fs b input_path output_path replace_existing).outcome.success
        = false ∧
    (convert_single_file pl fs b input_path output_path replace_existing).outcome.output
        = none ∧
    (convert_single_file pl fs b input_path output_path replace_existing).calls = [] := by
  rcases h with h | h
  · simp [convert_single_file, h]
  · by_cases h1 : fileExists fs input_path = false
    · simp [convert_single_file, h1]
    · simp [convert_single_file, h1, h]

/-- Witness for C2 at a concrete input: the file `a` does not exist in the
empty filesystem (and has no `.ppt` extension either). -/
theorem c2_witness :
    fileExists [] (⟨[], ['a']⟩ : FPath) = false ∧
    ((convert_single_file Platform.darwin [] (fun _ _ => Except.ok true)
        ⟨[], ['a']⟩ none true).outcome.success = false ∧
      (convert_single_file Platform.darwin [] (fun _ _ => Except.ok true)
        ⟨[], ['a']⟩ none true).outcome.output = none ∧
      (convert_single_file Platform.darwin [] (fun _ _ => Except.ok true)
        ⟨[], ['a']⟩ none true).calls = []) :=
  ⟨by decide,
    c2_invalid_input_no_backend Platform.darwin [] (fun _ _ => Except.ok true)
      ⟨[], ['a']⟩ none true (Or.inl (by decide))⟩

/-- C3: for every call to `convert_single_file` on a valid input whose
resolved output path already exists while `replace_existing` is false,
the call returns `success = false` with the "already exists (skipped)"
message and the conversion backend is not invoked. -/
theorem c3_skip_existing_output (pl : Platform) (fs : List FPath)
    (b : FPath → FPath → Except String Bool) (input_path : FPath)
    (output_path : Option FPath)
    (h1 : fileExists fs input_path = true)
    (h2 : (suffixChars input_path.name).map Char.toLower = pptExt)
    (h3 : fileExists fs (resolve_output input_path output_path) = true) :
    (convert_single_file pl fs b input_path output_path false).outcome.success = false ∧
    (convert_single_file pl fs b input_path output_path false).outcome.message =
      "Output file already exists (skipped): "
        ++ (resolve_output input_path output_path).toStr ∧
    (convert_single_file pl fs b input_path output_path false).calls = [] := by
  simp [convert_single_file, h1, h2, h3]

/-- Witness for C3 at a concrete input: `a.ppt` exists and its sibling
`a.pptx` also exists, so the call is skipped with no backend call. -/
theorem c3_witness :
    fileExists [⟨[], ['a', '.', 'p', 'p', 't']⟩, ⟨[], ['a', '.', 'p', 'p', 't', 'x']⟩]
      (⟨[], ['a', '.', 'p', 'p', 't']⟩ : FPath) = true ∧
    ((convert_single_file Platform.darwin
        [⟨[], ['a', '.', 'p', 'p', 't']⟩, ⟨[], ['a', '.', 'p', 'p', 't', 'x']⟩]
        (fun _ _ => Except.ok true) ⟨[], ['a', '.', 'p', 'p', 't']⟩ none
        false).outcome.success = false ∧
      (convert_single_file Platform.darwin
        [⟨[], ['a', '.', 'p', 'p', 't']⟩, ⟨[], ['a', '.', 'p', 'p', 't', 'x']⟩]
        (fun _ _ => Except.ok true) ⟨[], ['a', '.', 'p', 'p', 't']⟩ none
        false).outcome.message =
        "Output file already exists (skipped): "
          ++ (resolve_output ⟨[], ['a', '.', 'p', 'p', 't']⟩ none).toStr ∧
      (convert_single_file Platform.darwin
        [⟨[], ['a', '.', 'p', 'p', 't']⟩, ⟨[], ['a', '.', 'p', 'p', 't', 'x']⟩]
        (fun _ _ => Except.ok true) ⟨[], ['a', '.', 'p', 'p', 't']⟩ none
        false).calls = []) :=
  ⟨by decide,
    c3_skip_existing_output Platform.darwin
      [⟨[], ['a', '.', 'p', 'p', 't']⟩, ⟨[], ['a', '.', 'p', 'p', 't', 'x']⟩]
      (fun _ _ => Except.ok true) ⟨[], ['a', '.', 'p', 'p', 't']⟩ none
      (by decide) (by decide) (by decide)⟩

/-- C4: a dry-run batch invokes no backend, creates or modifies no file,
and returns `successful = 0`, `failed = 0` with `skipped` reflecting the
pre-filtering of already-existing outputs — for every worker count. -/
theorem c4_dry_run_pure (pl : Platform) (b : FPath → FPath → Except String Bool)
    (fs : List FPath) (recursive : Bool) (max_workers : Int)
    (replace_existing : Bool) :
    (convert_directory pl b (DirInput.dir fs) recursive true max_workers
        replace_existing).result =
      Except.ok (0, 0, preSkipCount fs replace_existing (globPpt fs recursive)) ∧
    (convert_directory pl b (DirInput.dir fs) recursive true max_workers
        replace_existing).calls = [] ∧
    (convert_directory pl b (DirInput.dir fs) recursive true max_workers
        replace_existing).finalFs = fs ∧
    (convert_directory pl b (DirInput.dir fs) recursive true max_workers
        replace_existing).poolSize = none := by
  by_cases hppt : globPpt fs recursive = []
  · simp [convert_directory, hppt, preSkipCount]
  · simp [convert_directory, hppt, prepareFiles_skipped]

/-- C5, counterexample to the claim as stated: the comtypes (Windows)
backend has no timeout, so an engine session lasting 301 seconds —
beyond the 5-minute bound — is not forced to fail: the job blocks for
the full 301 seconds and then reports success. -/
theorem c5_counterexample :
    300 < comtypes_block_time true ⟨301, false⟩ ∧
    convert_with_comtypes true ⟨301, false⟩ = true := by decide

/-- C5 as amended: the LibreOffice backend does enforce the bounded
timeout: every engine run longer than 300 seconds is forced to fail
(`subprocess.TimeoutExpired` is caught and reported as failure) and the
worker blocks at most 300 seconds. -/
theorem c5_libreoffice_timeout (soffice_found : Bool) (r : SubprocessRun)
    (h : 300 < r.duration) :
    convert_with_libreoffice soffice_found r = false ∧
    libreoffice_block_time soffice_found r ≤ 300 := by
  constructor
  · cases soffice_found <;> simp [convert_with_libreoffice, h]
  · cases soffice_found <;> simp [libreoffice_block_time]

/-- Witness for C5 (amended) at a concrete input: a 301-second engine run
fails and blocks for exactly 300 seconds. -/
theorem c5_witness :
    300 < (⟨301, 0, true⟩ : SubprocessRun).duration ∧
    (convert_with_libreoffice true ⟨301, 0, true⟩ = false ∧
      libreoffice_block_time true ⟨301, 0, true⟩ ≤ 300) :=
  ⟨by decide, c5_libreoffice_timeout true ⟨301, 0, true⟩ (by decide)⟩

/-- C6: failure isolation.  An exception raised while obtaining one job's
outcome is caught and counted as a failure for that job alone, leaving
every other job's contribution unchanged; every job is counted exactly
once (`successful + failed` equals the number of jobs, so the loop never
aborts early); and a backend that raises is converted into a
`success = false` outcome at the `convert_single_file` boundary rather
than propagating. -/
theorem c6_failure_isolation :
    (∀ (l1 l2 : List (Except String Outcome)) (e : String),
      tallyOutcomes (l1 ++ Except.error e :: l2) =
        ((tallyOutcomes (l1 ++ l2)).1, (tallyOutcomes (l1 ++ l2)).2 + 1)) ∧
    (∀ rs : List (Except String Outcome),
      (tallyOutcomes rs).1 + (tallyOutcomes rs).2 = rs.length) ∧
    (∀ (pl : Platform) (fs : List FPath) (input_path : FPath)
        (output_path : Option FPath) (replace_existing : Bool) (e : String),
      (convert_single_file pl fs (fun _ _ => Except.error e) input_path
        output_path replace_existing).outcome.success = false) := by
  refine ⟨?_, tallyOutcomes_fst_add_snd, ?_⟩
  · intro l1 l2 e
    induction l1 with
    | nil => simp [tallyOutcomes]
    | cons r rest ih =>
      cases r with
      | ok o =>
        by_cases hs : o.success = true <;> simp [tallyOutcomes, hs, ih]
      | error e' => simp [tallyOutcomes, ih]
  · intro pl fs input_path output_path replace_existing e
    by_cases h1 : fileExists fs input_path = false
    · simp [convert_single_file, h1]
    · by_cases h2 : (suffixChars input_path.name).map Char.toLower = pptExt
      · by_cases h3 : fileExists fs (resolve_output input_path output_path) = true ∧
            replace_existing = false
        · simp [convert_single_file, h1, h2, h3]
        · cases pl <;> simp [convert_single_file, h1, h2, h3]
      · simp [convert_single_file, h1, h2]

/-- C8: discovery enumerates exactly the files whose name carries the
legacy `.ppt` extension — at any depth in recursive mode, only at the top
level otherwise — and on the example directory containing `a.ppt`,
`b.ppt`, `d.txt` and `S/c.ppt`, the non-recursive run discovers
`{a.ppt, b.ppt}` while the recursive run discovers
`{a.ppt, b.ppt, S/c.ppt}`. -/
theorem c8_discovery :
    (∀ (fs : List FPath) (p : FPath) (recursive : Bool),
      p ∈ globPpt fs recursive ↔
        p ∈ fs ∧ endsWithChars p.name pptExt = true ∧
          (recursive = true ∨ p.dirs = [])) ∧
    globPpt [⟨[], ['a', '.', 'p', 'p', 't']⟩, ⟨[], ['b', '.', 'p', 'p', 't']⟩,
        ⟨[], ['d', '.', 't', 'x', 't']⟩, ⟨["S"], ['c', '.', 'p', 'p', 't']⟩] false =
      [⟨[], ['a', '.', 'p', 'p', 't']⟩, ⟨[], ['b', '.', 'p', 'p', 't']⟩] ∧
    globPpt [⟨[], ['a', '.', 'p', 'p', 't']⟩, ⟨[], ['b', '.', 'p', 'p', 't']⟩,
        ⟨[], ['d', '.', 't', 'x', 't']⟩, ⟨["S"], ['c', '.', 'p', 'p', 't']⟩] true =
      [⟨[], ['a', '.', 'p', 'p', 't']⟩, ⟨[], ['b', '.', 'p', 'p', 't']⟩,
        ⟨["S"], ['c', '.', 'p', 'p', 't']⟩] := by
  refine ⟨?_, by decide, by decide⟩
  intro fs p recursive
  cases recursive with
  | true => simp [globPpt, List.mem_filter]
  | false =>
    simp [globPpt, List.mem_filter, List.isEmpty_iff]
    tauto

/-- C9, counterexample to the claim as stated: a batch run over a
directory with no candidate files, given `max_workers = 0`, returns the
normal summary `(0, 0, 0)` instead of surfacing a configuration error —
the pool (whose constructor would raise) is never created. -/
theorem c9_counterexample :
    (convert_directory Platform.darwin (fun _ _ => Except.ok true)
      (DirInput.dir []) false false 0 true).result = Except.ok (0, 0, 0) := rfl

/-- C9 as amended: whenever at least one job is actually dispatched, a
non-positive `max_workers` is surfaced to the caller as the
`ThreadPoolExecutor` `ValueError` (never silently coerced), and for every
positive `max_workers` the run completes normally with the pool bounded
by exactly that number; with nothing to dispatch the pool is never
created and no error is raised. -/
theorem c9_worker_count (pl : Platform) (b : FPath → FPath → Except String Bool)
    (fs : List FPath) (recursive replace_existing : Bool) (max_workers : Int) :
    ((prepareFiles fs false replace_existing (globPpt fs recursive)).1 ≠ [] →
      max_workers ≤ 0 →
      (convert_directory pl b (DirInput.dir fs) recursive false max_workers
          replace_existing).result =
        Except.error "max_workers must be greater than 0") ∧
    (0 < max_workers →
      (∃ c, (convert_directory pl b (DirInput.dir fs) recursive false max_workers
          replace_existing).result = Except.ok c) ∧
      ∀ sz, (convert_directory pl b (DirInput.dir fs) recursive false max_workers
          replace_existing).poolSize = some sz → sz = max_workers) := by
  by_cases hppt : globPpt fs recursive = []
  · constructor
    · intro hne
      exfalso
      rw [hppt] at hne
      exact hne rfl
    · intro _
      exact ⟨⟨(0, 0, 0), by simp [convert_directory, hppt]⟩, by simp [convert_directory, hppt]⟩
  · by_cases hfts : (prepareFiles fs false replace_existing (globPpt fs recursive)).1 = []
    · constructor
      · intro hne
        exact absurd hfts hne
      · intro _
        refine ⟨⟨(0, 0, (prepareFiles fs false replace_existing
            (globPpt fs recursive)).2), ?_⟩, ?_⟩
        · simp [convert_directory, hppt, hfts]
        · simp [convert_directory, hppt, hfts]
    · by_cases hmw : max_workers ≤ 0
      · constructor
        · intro _ _
          simp [convert_directory, hppt, hfts, hmw]
        · intro hpos
          exact absurd hmw (by omega)
      · constructor
        · intro _ hle
          exact absurd hle hmw
        · intro _
          refine ⟨⟨((tallyOutcomes (runJobs pl fs b replace_existing
              (prepareFiles fs false replace_existing (globPpt fs recursive)).1).results).1,
              (tallyOutcomes (runJobs pl fs b replace_existing
              (prepareFiles fs false replace_existing (globPpt fs recursive)).1).results).2,
              (prepareFiles fs false replace_existing (globPpt fs recursive)).2), ?_⟩, ?_⟩
          · simp [convert_directory, hppt, hfts, hmw]
          · intro sz hsz
            simp [convert_directory, hppt, hfts, hmw] at hsz
            omega

/-- Witness for C9 (amended) at a concrete input: one candidate to
dispatch and `max_workers = 0` raise the `ValueError`. -/
theorem c9_witness :
    (prepareFiles [⟨[], ['a', '.', 'p', 'p', 't']⟩] false true
        (globPpt [⟨[], ['a', '.', 'p', 'p', 't']⟩] false)).1 ≠ [] ∧
    (0 : Int) ≤ 0 ∧
    (convert_directory Platform.darwin (fun _ _ => Except.ok true)
        (DirInput.dir [⟨[], ['a', '.', 'p', 'p', 't']⟩]) false false 0 true).result =
      Except.error "max_workers must be greater than 0" :=
  ⟨by decide, by decide,
    (c9_worker_count Platform.darwin (fun _ _ => Except.ok true)
      [⟨[], ['a', '.', 'p', 'p', 't']⟩] false true 0).1 (by decide) (by decide)⟩

/-- C10: a `convert_directory` call on a missing path, or on a path that
is not a directory, returns the summary `(0, 0, 0)` without raising and
makes no backend call — indistinguishable from a run over a directory
with no candidate `.ppt` files, which returns the same. -/
theorem c10_missing_dir (pl : Platform) (b : FPath → FPath → Except String Bool)
    (recursive dry_run : Bool) (max_workers : Int) (replace_existing : Bool) :
    ((convert_directory pl b DirInput.missing recursive dry_run max_workers
        replace_existing).result = Except.ok (0, 0, 0) ∧
      (convert_directory pl b DirInput.missing recursive dry_run max_workers
        replace_existing).calls = []) ∧
    ((convert_directory pl b DirInput.notDir recursive dry_run max_workers
        replace_existing).result = Except.ok (0, 0, 0) ∧
      (convert_directory pl b DirInput.notDir recursive dry_run max_workers
        replace_existing).calls = []) ∧
    ∀ fs : List FPath, globPpt fs recursive = [] →
      (convert_directory pl b (DirInput.dir fs) recursive dry_run max_workers
          replace_existing).result = Except.ok (0, 0, 0) ∧
        (convert_directory pl b (DirInput.dir fs) recursive dry_run max_workers
          replace_existing).calls = [] := by
  refine ⟨⟨rfl, rfl⟩, ⟨rfl, rfl⟩, ?_⟩
  intro fs h
  exact ⟨by simp [convert_directory, h], by simp [convert_directory, h]⟩

/-- Witness for C10 at a concrete input: a directory holding only
`x.txt` has no candidates and yields the same `(0, 0, 0)` summary the
missing-path case yields. -/
theorem c10_witness :
    globPpt [⟨[], ['x', '.', 't', 'x', 't']⟩] false = [] ∧
    ((convert_directory Platform.darwin (fun _ _ => Except.ok true)
        (DirInput.dir [⟨[], ['x', '.', 't', 'x', 't']⟩]) false false 10 true).result =
      Except.ok (0, 0, 0) ∧
      (convert_directory Platform.darwin (fun _ _ => Except.ok true)
        (DirInput.dir [⟨[], ['x', '.', 't', 'x', 't']⟩]) false false 10 true).calls = []) :=
  ⟨by decide,
    (c10_missing_dir Platform.darwin (fun _ _ => Except.ok true) false false 10
      true).2.2 [⟨[], ['x', '.', 't', 'x', 't']⟩] (by decide)⟩

/-- C1: for every live (non-dry-run) batch run whose summary is actually
returned, `successful + failed + skipped` equals the number of discovered
candidate `.ppt` files — every discovered file is counted exactly once,
either as a pre-filter skip or as exactly one job outcome. -/
theorem c1_counts_partition (pl : Platform) (b : FPath → FPath → Except String Bool)
    (fs : List FPath) (recursive replace_existing : Bool) (max_workers : Int)
    (s f sk : Nat)
    (h : (convert_directory pl b (DirInput.dir fs) recursive false max_workers
        replace_existing).result = Except.ok (s, f, sk)) :
    s + f + sk = (globPpt fs recursive).length := by
  by_cases hppt : globPpt fs recursive = []
  · simp [convert_directory, hppt, Prod.ext_iff] at h
    obtain ⟨hs, hf, hsk⟩ := h
    simp [hppt, ← hs, ← hf, ← hsk]
  · by_cases hfts : (prepareFiles fs false replace_existing (globPpt fs recursive)).1 = []
    · simp [convert_directory, hppt, hfts, Prod.ext_iff] at h
      obtain ⟨hs, hf, hsk⟩ := h
      have hlen := prepareFiles_length fs replace_existing (globPpt fs recursive)
      rw [hfts] at hlen
      simp at hlen
      omega
    · by_cases hmw : max_workers ≤ 0
      · simp [convert_directory, hppt, hfts, hmw] at h
      · simp [convert_directory, hppt, hfts, hmw, Prod.ext_iff] at h
        obtain ⟨hs, hf, hsk⟩ := h
        have hlen := prepareFiles_length fs replace_existing (globPpt fs recursive)
        have htal := tallyOutcomes_fst_add_snd
          (runJobs pl fs b replace_existing
            (prepareFiles fs false replace_existing (globPpt fs recursive)).1).results
        have hrl : (runJobs pl fs b replace_existing
            (prepareFiles fs false replace_existing (globPpt fs recursive)).1).results.length =
            (prepareFiles fs false replace_existing (globPpt fs recursive)).1.length := by
          simp [runJobs]
        omega

/-- Witness for C1 at a concrete input: a directory with one candidate
`a.ppt` and an always-succeeding backend returns summary `(1, 0, 0)`,
and `1 + 0 + 0` equals the one discovered candidate. -/
theorem c1_witness :
    (convert_directory Platform.darwin (fun _ _ => Except.ok true)
        (DirInput.dir [⟨[], ['a', '.', 'p', 'p', 't']⟩]) false false 1 true).result =
      Except.ok (1, 0, 0) ∧
    1 + 0 + 0 = (globPpt [⟨[], ['a', '.', 'p', 'p', 't']⟩] false).length :=
  ⟨rfl,
    c1_counts_partition Platform.darwin (fun _ _ => Except.ok true)
      [⟨[], ['a', '.', 'p', 'p', 't']⟩] false true 1 1 0 0 rfl⟩

/-- C7: with `replace_existing = false`, a second run over the directory
state left by a first run that converted every candidate (no failures, no
skips) skips everything: it reports `skipped` equal to the total number
of candidates and makes zero backend calls. -/
theorem c7_idempotent (pl : Platform) (b : FPath → FPath → Except String Bool)
    (fs : List FPath) (recursive : Bool) (max_workers : Int) (s : Nat)
    (h : (convert_directory pl b (DirInput.dir fs) recursive false max_workers
        false).result = Except.ok (s, 0, 0)) :
    (convert_directory pl b
        (DirInput.dir (convert_directory pl b (DirInput.dir fs) recursive false
          max_workers false).finalFs) recursive false max_workers false).result =
      Except.ok (0, 0, (globPpt fs recursive).length) ∧
    (convert_directory pl b
        (DirInput.dir (convert_directory pl b (DirInput.dir fs) recursive false
          max_workers false).finalFs) recursive false max_workers false).calls = [] := by
  by_cases hppt : globPpt fs recursive = []
  · have hfs2 : (convert_directory pl b (DirInput.dir fs) recursive false max_workers
        false).finalFs = fs := by
      simp [convert_directory, hppt]
    rw [hfs2]
    exact ⟨by simp [convert_directory, hppt], by simp [convert_directory, hppt]⟩
  · by_cases hfts : (prepareFiles fs false false (globPpt fs recursive)).1 = []
    · exfalso
      simp [convert_directory, hppt, hfts, Prod.ext_iff] at h
      obtain ⟨hs, hsk⟩ := h
      have hlen := prepareFiles_length fs false (globPpt fs recursive)
      rw [hfts] at hlen
      simp at hlen
      have hzero : (globPpt fs recursive).length = 0 := by omega
      exact hppt (List.length_eq_zero.mp hzero)
    · by_cases hmw : max_workers ≤ 0
      · exfalso
        simp [convert_directory, hppt, hfts, hmw] at h
      · simp [convert_directory, hppt, hfts, hmw, Prod.ext_iff] at h
        obtain ⟨hs, hf, hsk⟩ := h
        have hall := tallyOutcomes_snd_zero hf
        have hmapfts := prepareFiles_skip_zero fs (globPpt fs recursive) hsk
        have hcreated_out : ∀ q ∈ (runJobs pl fs b false
            (prepareFiles fs false false (globPpt fs recursive)).1).created,
            ∃ j ∈ (prepareFiles fs false false (globPpt fs recursive)).1, q = j.2 := by
          intro q hq
          simp only [runJobs] at hq
          obtain ⟨l, hl, hql⟩ := List.mem_flatten.mp hq
          obtain ⟨j, hj, rfl⟩ := List.mem_map.mp hl
          refine ⟨j, hj, ?_⟩
          have := convert_single_file_created_mem pl fs b j.1 (some j.2) false q hql
          simpa [resolve_output] using this
        have hnoppt : ∀ q ∈ (runJobs pl fs b false
            (prepareFiles fs false false (globPpt fs recursive)).1).created,
            endsWithChars q.name pptExt = false := by
          intro q hq
          obtain ⟨j, hj, hqe⟩ := hcreated_out q hq
          have hj2 := (prepareFiles_pairs fs false false (globPpt fs recursive) j hj).1
          rw [hqe, hj2]
          exact outputPathOf_not_ppt j.1
        have hglob2 := globPpt_append_no_ppt fs
          ((runJobs pl fs b false
            (prepareFiles fs false false (globPpt fs recursive)).1).created)
          recursive hnoppt
        have hex : ∀ p ∈ globPpt fs recursive,
            fileExists (fs ++ (runJobs pl fs b false
              (prepareFiles fs false false (globPpt fs recursive)).1).created)
              (outputPathOf p) = true := by
          intro p hp
          have hmem : (p, outputPathOf p) ∈
              (prepareFiles fs false false (globPpt fs recursive)).1 := by
            rw [hmapfts]
            exact List.mem_map_of_mem _ hp
          have hres : Except.ok
              (convert_single_file pl fs b p (some (outputPathOf p)) false).outcome ∈
              (runJobs pl fs b false
                (prepareFiles fs false false (globPpt fs recursive)).1).results := by
            simp only [runJobs]
            exact List.mem_map_of_mem _ hmem
          obtain ⟨o, ho, hos⟩ := hall _ hres
          have hout : (convert_single_file pl fs b p (some (outputPathOf p))
              false).outcome = o := by
            injection ho
          have hsucc : (convert_single_file pl fs b p (some (outputPathOf p))
              false).outcome.success = true := by
            rw [hout]
            exact hos
          have hcr := convert_single_file_success_created pl fs b p (outputPathOf p)
            false hsucc
          have hqin : outputPathOf p ∈ (runJobs pl fs b false
              (prepareFiles fs false false (globPpt fs recursive)).1).created := by
            simp only [runJobs, List.mem_flatten]
            refine ⟨[outputPathOf p], ?_, List.mem_singleton.mpr rfl⟩
            rw [← hcr]
            exact List.mem_map_of_mem _ hmem
          simp only [fileExists, decide_eq_true_eq, List.mem_append]
          exact Or.inr hqin
        have hfs2 : (convert_directory pl b (DirInput.dir fs) recursive false
            max_workers false).finalFs = fs ++ (runJobs pl fs b false
              (prepareFiles fs false false (globPpt fs recursive)).1).created := by
          simp [convert_directory, hppt, hfts, hmw]
        rw [hfs2]
        have hprep2 := prepareFiles_all_exist
          (fs ++ (runJobs pl fs b false
            (prepareFiles fs false false (globPpt fs recursive)).1).created)
          (globPpt fs recursive) hex
        constructor
        · simp [convert_directory, hglob2, hppt, hprep2]
        · simp [convert_directory, hglob2, hppt, hprep2]

/-- Witness for C7 at a concrete input: a directory with one candidate
`a.ppt`; the first run converts it, and the second run over the resulting
filesystem skips the single candidate with no backend call. -/
theorem c7_witness :
    (convert_directory Platform.darwin (fun _ _ => Except.ok true)
        (DirInput.dir [⟨[], ['a', '.', 'p', 'p', 't']⟩]) false false 1 false).result =
      Except.ok (1, 0, 0) ∧
    ((convert_directory Platform.darwin (fun _ _ => Except.ok true)
        (DirInput.dir (convert_directory Platform.darwin (fun _ _ => Except.ok true)
          (DirInput.dir [⟨[], ['a', '.', 'p', 'p', 't']⟩]) false false 1
          false).finalFs) false false 1 false).result =
      Except.ok (0, 0, (globPpt [⟨[], ['a', '.', 'p', 'p', 't']⟩] false).length) ∧
     (convert_directory Platform.darwin (fun _ _ => Except.ok true)
        (DirInput.dir (convert_directory Platform.darwin (fun _ _ => Except.ok true)
          (DirInput.dir [⟨[], ['a', '.', 'p', 'p', 't']⟩]) false false 1
          false).finalFs) false false 1 false).calls = []) :=
  ⟨rfl,
    c7_idempotent Platform.darwin (fun _ _ => Except.ok true)
      [⟨[], ['a', '.', 'p', 'p', 't']⟩] false 1 1 rfl⟩
